import Mathlib

set_option maxHeartbeats 1000000

/-
Verification of the blog-publisher MCP server (singhkunal2050/blogPublisherMCP).

The program is the composed implementation: src/blog-utils.ts (document
builder), src/constants.ts (tool registry), src/github.ts (remote store
client) and the server class that imports them (tool dispatch and the
publish / list / update / delete handlers).  Pure functions are translated
directly; the remote GitHub contents API is modelled as an environment of
response functions, and each handler is a state-passing computation that
also records the sequence of remote calls it performs.
-/

/-- Characters matched by the JavaScript regex class `\s` (and removed by
`String.prototype.trim`): space, TAB..CR, NBSP, OGHAM space, the Unicode
space separators U+2000..U+200A, line and paragraph separators, narrow
no-break space, medium mathematical space, ideographic space, and BOM. -/
def isJsSpace (c : Char) : Bool :=
  c.toNat == 32 || (9 ≤ c.toNat && c.toNat ≤ 13) || c.toNat == 160 ||
  c.toNat == 0x1680 || (0x2000 ≤ c.toNat && c.toNat ≤ 0x200a) ||
  c.toNat == 0x2028 || c.toNat == 0x2029 || c.toNat == 0x202f ||
  c.toNat == 0x205f || c.toNat == 0x3000 || c.toNat == 0xfeff

/-- The ASCII action of JavaScript `String.prototype.toLowerCase`.  The JS
function also lowercases non-ASCII letters, but every non-ASCII character is
removed by the following `[^a-z0-9\s-]` filter in `generateFilename`, so
only the ASCII action is observable there. -/
def jsLowerAscii (c : Char) : Char :=
  if 65 ≤ c.toNat ∧ c.toNat ≤ 90 then Char.ofNat (c.toNat + 32) else c

/-- Test for the hyphen character, the class of the global regex `-+`. -/
def isHyphen (c : Char) : Bool := c == '-'

/-- Characters kept by `.replace(/[^a-z0-9\s-]/g, "")`: lowercase ASCII
letters, ASCII digits, JS whitespace, and the hyphen. -/
def isSlugKeep (c : Char) : Bool :=
  (97 ≤ c.toNat && c.toNat ≤ 122) || (48 ≤ c.toNat && c.toNat ≤ 57) ||
  isJsSpace c || c == '-'

/-- One global replacement `X+ -> rep`, as in the replaces with the regexes
`\s+` and `-+` in generateFilename: each maximal run of characters
satisfying `p` becomes the single character `rep`.  The Boolean argument
records whether the previous character belonged to a run. -/
def squashRuns (p : Char → Bool) (rep : Char) : List Char → Bool → List Char
  | [], _ => []
  | c :: cs, inRun =>
    if p c then
      (if inRun then squashRuns p rep cs true else rep :: squashRuns p rep cs true)
    else c :: squashRuns p rep cs false

/-- JavaScript `String.prototype.trim` on a character list: drop JS
whitespace from both ends. -/
def jsTrim (l : List Char) : List Char :=
  ((l.dropWhile isJsSpace).reverse.dropWhile isJsSpace).reverse

/-- Character-list core of `generateFilename` from src/blog-utils.ts:
lowercase, strip characters outside `[a-z0-9\s-]`, replace whitespace runs
by a hyphen, collapse hyphen runs, then trim.  Note that `.trim()` runs
after every whitespace character has already been replaced by a hyphen. -/
def slugChars (l : List Char) : List Char :=
  jsTrim (squashRuns isHyphen '-'
    (squashRuns isJsSpace '-' ((l.map jsLowerAscii).filter isSlugKeep) false) false)

/-- `generateFilename(title)` from src/blog-utils.ts (also the private
method of the same name of the server class). -/
def generateFilename (title : String) : String :=
  String.mk (slugChars title.data)

/-- Spec-side predicate: a character a slug may contain (lowercase ASCII
letter, ASCII digit, or hyphen). -/
def isSlugOutputChar (c : Char) : Bool :=
  (97 ≤ c.toNat && c.toNat ≤ 122) || (48 ≤ c.toNat && c.toNat ≤ 57) || c == '-'

theorem mem_squashRuns (p : Char → Bool) (rep : Char) :
    ∀ (l : List Char) (b : Bool) (c : Char), c ∈ squashRuns p rep l b →
      c = rep ∨ (c ∈ l ∧ p c = false) := by
  intro l
  induction l with
  | nil => intro b c h; simp [squashRuns] at h
  | cons d ds ih =>
    intro b c h
    by_cases hd : p d
    · rw [squashRuns, if_pos hd] at h
      cases b with
      | true =>
        simp only [if_pos rfl] at h
        rcases ih true c h with h1 | ⟨h2, h3⟩
        · exact Or.inl h1
        · exact Or.inr ⟨List.mem_cons_of_mem d h2, h3⟩
      | false =>
        rw [if_neg Bool.false_ne_true, List.mem_cons] at h
        rcases h with h | h
        · exact Or.inl h
        · rcases ih true c h with h1 | ⟨h2, h3⟩
          · exact Or.inl h1
          · exact Or.inr ⟨List.mem_cons_of_mem d h2, h3⟩
    · rw [squashRuns, if_neg hd] at h
      rcases List.mem_cons.mp h with h | h
      · subst h
        exact Or.inr ⟨List.mem_cons_self c ds, by simpa using hd⟩
      · rcases ih false c h with h1 | ⟨h2, h3⟩
        · exact Or.inl h1
        · exact Or.inr ⟨List.mem_cons_of_mem d h2, h3⟩

theorem mem_jsTrim {l : List Char} {c : Char} (h : c ∈ jsTrim l) : c ∈ l := by
  unfold jsTrim at h
  rw [List.mem_reverse] at h
  have h1 := (List.dropWhile_sublist (l := (l.dropWhile isJsSpace).reverse)
    (p := isJsSpace)).mem h
  rw [List.mem_reverse] at h1
  exact (List.dropWhile_sublist (l := l) (p := isJsSpace)).mem h1

theorem isJsSpace_false_of_slug {c : Char}
    (h : c.toNat = 45 ∨ (48 ≤ c.toNat ∧ c.toNat ≤ 57) ∨ (97 ≤ c.toNat ∧ c.toNat ≤ 122)) :
    isJsSpace c = false := by
  simp only [isJsSpace, Bool.or_eq_false_iff, Bool.and_eq_false_iff,
    beq_eq_false_iff_ne, ne_eq, decide_eq_false_iff_not, not_le]
  omega

theorem toNat_of_slugOutputChar {c : Char} (h : isSlugOutputChar c = true) :
    c.toNat = 45 ∨ (48 ≤ c.toNat ∧ c.toNat ≤ 57) ∨ (97 ≤ c.toNat ∧ c.toNat ≤ 122) := by
  simp only [isSlugOutputChar, Bool.or_eq_true, Bool.and_eq_true,
    decide_eq_true_eq, beq_iff_eq] at h
  rcases h with (⟨h1, h2⟩ | ⟨h1, h2⟩) | h1
  · omega
  · omega
  · subst h1; left; rfl

theorem isSlugOutputChar_of_keep {c : Char} (hk : isSlugKeep c = true)
    (hs : isJsSpace c = false) : isSlugOutputChar c = true := by
  simp only [isSlugKeep, hs, Bool.or_false, Bool.or_eq_true] at hk
  simp only [isSlugOutputChar, Bool.or_eq_true]
  tauto

theorem mem_preTrim_slug {l : List Char} {c : Char}
    (h : c ∈ squashRuns isHyphen '-'
      (squashRuns isJsSpace '-' ((l.map jsLowerAscii).filter isSlugKeep) false) false) :
    isSlugOutputChar c = true := by
  rcases mem_squashRuns _ _ _ _ _ h with h1 | ⟨h2, _⟩
  · subst h1; decide
  · rcases mem_squashRuns _ _ _ _ _ h2 with h3 | ⟨h4, h5⟩
    · subst h3; decide
    · exact isSlugOutputChar_of_keep (List.of_mem_filter h4) h5

theorem mem_slugChars {l : List Char} {c : Char} (h : c ∈ slugChars l) :
    isSlugOutputChar c = true :=
  mem_preTrim_slug (mem_jsTrim h)

theorem jsTrim_eq_self {l : List Char} (h : ∀ c ∈ l, isJsSpace c = false) :
    jsTrim l = l := by
  have drop1 : ∀ (m : List Char), (∀ c ∈ m, isJsSpace c = false) →
      m.dropWhile isJsSpace = m := by
    intro m hm
    cases m with
    | nil => rfl
    | cons d ds => rw [List.dropWhile_cons, hm d (List.mem_cons_self d ds)]; simp
  unfold jsTrim
  rw [drop1 l h]
  rw [drop1 l.reverse (by intro c hc; exact h c (List.mem_reverse.mp hc))]
  exact List.reverse_reverse l

theorem squashRuns_eq_self {p : Char → Bool} {rep : Char} :
    ∀ (l : List Char), (∀ c ∈ l, p c = false) → ∀ b, squashRuns p rep l b = l := by
  intro l
  induction l with
  | nil => intro _ _; rfl
  | cons d ds ih =>
    intro h b
    rw [squashRuns, if_neg (by simp [h d (List.mem_cons_self d ds)])]
    rw [ih (fun c hc => h c (List.mem_cons_of_mem d hc)) false]

theorem squashRuns_hyphen_head :
    ∀ (l : List Char) (c : Char),
      (squashRuns isHyphen '-' l true).head? = some c → c ≠ '-' := by
  intro l
  induction l with
  | nil => intro c h; simp [squashRuns] at h
  | cons d ds ih =>
    intro c h
    by_cases hd : isHyphen d
    · rw [squashRuns, if_pos hd, if_pos rfl] at h
      exact ih c h
    · rw [squashRuns, if_neg hd, List.head?_cons, Option.some.injEq] at h
      subst h
      simpa [isHyphen] using hd

theorem squashRuns_hyphen_chain :
    ∀ (l : List Char) (b : Bool),
      List.Chain' (fun a c => ¬(a = '-' ∧ c = '-')) (squashRuns isHyphen '-' l b) := by
  intro l
  induction l with
  | nil => intro b; simp [squashRuns]
  | cons d ds ih =>
    intro b
    by_cases hd : isHyphen d
    · rw [squashRuns, if_pos hd]
      cases b with
      | true => simpa using ih true
      | false =>
        rw [if_neg Bool.false_ne_true]
        rw [List.chain'_cons']
        refine ⟨?_, ih true⟩
        intro y hy
        intro hcon
        exact squashRuns_hyphen_head ds y hy hcon.2
    · rw [squashRuns, if_neg hd]
      rw [List.chain'_cons']
      refine ⟨?_, ih false⟩
      intro y _
      intro hcon
      have : d = '-' := hcon.1
      simp [isHyphen, this] at hd

theorem squashRuns_hyphen_id :
    ∀ (l : List Char), List.Chain' (fun a c => ¬(a = '-' ∧ c = '-')) l →
      squashRuns isHyphen '-' l false = l ∧
      ((∀ c, l.head? = some c → c ≠ '-') → squashRuns isHyphen '-' l true = l) := by
  intro l
  induction l with
  | nil => intro _; exact ⟨rfl, fun _ => rfl⟩
  | cons d ds ih =>
    intro hch
    rw [List.chain'_cons'] at hch
    rcases hch with ⟨hhd, hch⟩
    rcases ih hch with ⟨ih1, ih2⟩
    by_cases hd : isHyphen d
    · have hdEq : d = '-' := by simpa [isHyphen] using hd
      have hds : squashRuns isHyphen '-' ds true = ds := by
        apply ih2
        intro c hc hcEq
        exact hhd c hc ⟨hdEq, hcEq⟩
      constructor
      · rw [squashRuns, if_pos hd]
        rw [if_neg Bool.false_ne_true]
        rw [hds, hdEq]
      · intro hhead
        exact absurd hdEq (hhead d rfl)
    · constructor
      · rw [squashRuns, if_neg hd, ih1]
      · intro _
        rw [squashRuns, if_neg hd, ih1]

theorem slugChars_chain (l : List Char) :
    List.Chain' (fun a c => ¬(a = '-' ∧ c = '-')) (slugChars l) := by
  unfold slugChars
  rw [jsTrim_eq_self (fun c hc => isJsSpace_false_of_slug
    (toNat_of_slugOutputChar (mem_preTrim_slug hc)))]
  exact squashRuns_hyphen_chain _ false

theorem slugChars_trim_vacuous (l : List Char) :
    slugChars l = squashRuns isHyphen '-'
      (squashRuns isJsSpace '-' ((l.map jsLowerAscii).filter isSlugKeep) false) false := by
  unfold slugChars
  exact jsTrim_eq_self (fun c hc => isJsSpace_false_of_slug
    (toNat_of_slugOutputChar (mem_preTrim_slug hc)))

theorem jsLowerAscii_fixed {c : Char} (h : isSlugOutputChar c = true) :
    jsLowerAscii c = c := by
  rcases toNat_of_slugOutputChar h with h1 | h1 | h1 <;>
    · unfold jsLowerAscii
      rw [if_neg (by omega)]

theorem isSlugKeep_of_output {c : Char} (h : isSlugOutputChar c = true) :
    isSlugKeep c = true := by
  simp only [isSlugOutputChar, Bool.or_eq_true] at h
  simp only [isSlugKeep, Bool.or_eq_true]
  tauto

theorem slugChars_idem (l : List Char) : slugChars (slugChars l) = slugChars l := by
  have hmem : ∀ c ∈ slugChars l, isSlugOutputChar c = true := fun c hc => mem_slugChars hc
  have hmap : (slugChars l).map jsLowerAscii = slugChars l := by
    have h := List.map_congr_left (f := jsLowerAscii) (g := id) (l := slugChars l)
      (fun c hc => jsLowerAscii_fixed (hmem c hc))
    simpa using h
  have hfilter : ((slugChars l).map jsLowerAscii).filter isSlugKeep = slugChars l := by
    rw [hmap]
    exact List.filter_eq_self.mpr (fun c hc => isSlugKeep_of_output (hmem c hc))
  have hnospace : ∀ c ∈ slugChars l, isJsSpace c = false := fun c hc =>
    isJsSpace_false_of_slug (toNat_of_slugOutputChar (hmem c hc))
  conv_lhs => rw [slugChars]
  rw [hfilter, squashRuns_eq_self _ hnospace false,
    (squashRuns_hyphen_id _ (slugChars_chain l)).1, jsTrim_eq_self hnospace]

/-- C9: the slug function is idempotent: applying `generateFilename` to its
own output returns that output unchanged. -/
theorem generateFilename_idempotent (x : String) :
    generateFilename (generateFilename x) = generateFilename x :=
  congrArg String.mk (slugChars_idem x.data)

/-- C4 (counterexample): the claim "no leading or trailing hyphen" is false.
`.trim()` runs after whitespace has been replaced by hyphens, so the title
"hello " yields the slug "hello-", which ends in a hyphen. -/
theorem generateFilename_trailing_hyphen :
    generateFilename "hello " = "hello-" ∧
    (generateFilename "hello ").data.getLast? = some '-' := by
  constructor
  · rfl
  · rfl

/-- C4 (amended): for every title the slug function is deterministic (it is
a pure function of its argument) and its output contains only lowercase
ASCII letters, digits and hyphens, with no two consecutive hyphens; a
leading or trailing hyphen can occur (see the counterexample), because
`.trim()` runs only after whitespace was replaced by hyphens. -/
theorem generateFilename_slug_shape (title : String) :
    (∀ c ∈ (generateFilename title).data, isSlugOutputChar c = true) ∧
    List.Chain' (fun a c => ¬(a = '-' ∧ c = '-')) (generateFilename title).data := by
  constructor
  · intro c hc
    exact mem_slugChars hc
  · exact slugChars_chain title.data

/-- Sanity instance from the spec: the title "Hello, World! 2024" derives
the slug "hello-world-2024". -/
theorem generateFilename_hello_world :
    generateFilename "Hello, World! 2024" = "hello-world-2024" := by rfl

/-- Truthiness of a possibly-absent JavaScript string: `undefined` and the
empty string are falsy. -/
def jsTruthy : Option String → Bool
  | none => false
  | some s => !(s == "")

/-- Value of a JS string known to be present (used only under `jsTruthy`). -/
def jsGetStr : Option String → String
  | none => ""
  | some s => s

/-- JavaScript `a || b` for an optional string `a` and a string `b`. -/
def jsOrOpt (a : Option String) (b : String) : String :=
  match a with
  | none => b
  | some s => if s == "" then b else s

/-- BlogPostMetadata from src/types.ts. -/
structure BlogPostMetadata where
  title : String
  description : Option String
  tags : Option (List String)
  date : Option String
  author : Option String
  image : Option String
  imageAlt : Option String
  readTime : Option String
deriving DecidableEq

/-- Line pushed for `author` when truthy, nothing otherwise. -/
def authorBlock (md : BlogPostMetadata) : List String :=
  if jsTruthy md.author then ["author: " ++ jsGetStr md.author] else []

/-- Line pushed for `description` when truthy, nothing otherwise. -/
def descriptionBlock (md : BlogPostMetadata) : List String :=
  if jsTruthy md.description then ["description: " ++ jsGetStr md.description] else []

/-- The tag list serialized: `[...(metadata.tags || []), "post"]`. -/
def frontTags (md : BlogPostMetadata) : List String :=
  (md.tags.getD []) ++ ["post"]

/-- The `tags:` header line and one indented line per tag (the guard
`tags.length > 0` is from the source; the list is in fact never empty). -/
def tagsBlock (md : BlogPostMetadata) : List String :=
  if (frontTags md).length > 0 then
    "tags:" :: (frontTags md).map (fun t => "  - " ++ t)
  else []

/-- The `date:` line: the supplied date or `new Date().toISOString()`,
where the current timestamp is modelled by the parameter `now`. -/
def dateLine (now : String) (md : BlogPostMetadata) : String :=
  "date: " ++ jsOrOpt md.date now

/-- Line pushed for `image` when truthy, nothing otherwise. -/
def imageBlock (md : BlogPostMetadata) : List String :=
  if jsTruthy md.image then ["image: " ++ jsGetStr md.image] else []

/-- Line pushed for `imageAlt` when truthy (always quoted), nothing
otherwise. -/
def imageAltBlock (md : BlogPostMetadata) : List String :=
  if jsTruthy md.imageAlt then ["imageAlt: \"" ++ jsGetStr md.imageAlt ++ "\""] else []

/-- Line pushed for `readTime` when truthy, nothing otherwise. -/
def readTimeBlock (md : BlogPostMetadata) : List String :=
  if jsTruthy md.readTime then ["readTime: " ++ jsGetStr md.readTime] else []

/-- The frontmatter line sequence built by `formatFrontmatter` in
src/blog-utils.ts, in the exact push order of the source: opening marker,
title, optional author, optional description, the tags section, date,
optional image, imageAlt and readTime, closing marker, trailing blank. -/
def frontmatterLines (now : String) (md : BlogPostMetadata) : List String :=
  ["---", "title: " ++ md.title] ++ authorBlock md ++ descriptionBlock md ++
    tagsBlock md ++ [dateLine now md] ++ imageBlock md ++ imageAltBlock md ++
    readTimeBlock md ++ ["---", ""]

/-- `formatFrontmatter(metadata)` from src/blog-utils.ts: the lines joined
with newlines (the trailing empty line makes the result end in a newline). -/
def formatFrontmatter (now : String) (md : BlogPostMetadata) : String :=
  String.intercalate "\n" (frontmatterLines now md)

/-- `createBlogPostContent(metadata, content)` from src/blog-utils.ts. -/
def createBlogPostContent (now : String) (md : BlogPostMetadata) (content : String) : String :=
  formatFrontmatter now md ++ content

/-- Spec-side predicate: the string `s` starts with the string `p`. -/
def strStarts (p s : String) : Bool :=
  List.isPrefixOf p.data s.data

/-- Spec-side predicate: no line of `ls` starts with `p`. -/
def linesAvoid (ls : List String) (p : String) : Bool :=
  ls.all (fun l => !(strStarts p l))

theorem tagsBlock_eq (md : BlogPostMetadata) :
    tagsBlock md = "tags:" :: (frontTags md).map (fun t => "  - " ++ t) := by
  unfold tagsBlock
  rw [if_pos]
  simp [frontTags]

/-- C7: the tags section lists the caller-supplied tags in order followed by
one forced "post" entry, with no de-duplication; with no caller tags the
section is the single entry "  - post", and a caller list already containing
"post" yields two identical "  - post" lines (both are instances of the
first equation). -/
theorem formatFrontmatter_tags_no_dedup (now : String) (md : BlogPostMetadata) :
    tagsBlock md = "tags:" :: ((md.tags.getD []).map (fun t => "  - " ++ t) ++ ["  - post"]) ∧
    (∃ pre suf, frontmatterLines now md = pre ++ tagsBlock md ++ suf) := by
  constructor
  · rw [tagsBlock_eq]
    simp [frontTags]
  · refine ⟨["---", "title: " ++ md.title] ++ authorBlock md ++ descriptionBlock md,
      [dateLine now md] ++ imageBlock md ++ imageAltBlock md ++ readTimeBlock md ++ ["---", ""],
      ?_⟩
    simp [frontmatterLines]

/-- Instance of the C7 equation: with no caller tags the section is exactly
`tags:` followed by the single entry for the forced "post" tag. -/
theorem tagsBlock_no_tags :
    tagsBlock ⟨"T", none, none, none, none, none, none, none⟩ = ["tags:", "  - post"] := by
  rfl

/-- Instance of the C7 equation: the caller list `["a", "post"]` yields the
entry "  - post" twice. -/
theorem tagsBlock_duplicate_post :
    tagsBlock ⟨"T", none, some ["a", "post"], none, none, none, none, none⟩ =
      ["tags:", "  - a", "  - post", "  - post"] := by
  rfl

/-- GitHubFile from src/types.ts (the GitHub contents-API file metadata;
`sha` is the optimistic-concurrency content hash). -/
structure GitHubFile where
  name : String
  path : String
  sha : String
  size : Nat
  url : String
  html_url : String
  git_url : String
  download_url : String
  type : String
deriving DecidableEq

/-- Author or committer record of a commit (src/types.ts). -/
structure CommitUser where
  name : String
  email : String
  date : String
deriving DecidableEq

/-- Commit part of GitHubCreateFileResponse (src/types.ts). -/
structure CommitInfo where
  sha : String
  node_id : String
  url : String
  html_url : String
  author : CommitUser
  committer : CommitUser
  message : String
deriving DecidableEq

/-- GitHubCreateFileResponse from src/types.ts. -/
structure GitHubCreateFileResponse where
  content : GitHubFile
  commit : CommitInfo
deriving DecidableEq

/-- Outcome of one remote HTTP call: success with a typed payload, or an
axios-style failure carrying the optional response status, the optional
`response.data.message`, and the error message. -/
inductive RemoteResult (α : Type) where
  | ok (val : α)
  | err (status : Option Nat) (dataMessage : Option String) (message : String)
deriving DecidableEq

/-- MCP error codes used by the server (from the protocol SDK). -/
inductive ErrorCode where
  | invalidRequest
  | methodNotFound
  | internalError
deriving DecidableEq

/-- A thrown JavaScript error: either a typed McpError or an axios/HTTP
error (anything that is not an McpError). -/
inductive JsError where
  | mcp (code : ErrorCode) (message : String)
  | http (status : Option Nat) (dataMessage : Option String) (message : String)
deriving DecidableEq

/-- One remote call of the GitHub contents API, as issued by GitHubClient:
a GET of a path, a PUT with content, commit message and optional sha
(create when `none`, update when `some`), or a DELETE with message and sha.
The base64 transport encoding of the content body is elided: it is an
injective encoding and no claim depends on it. -/
inductive StoreCall where
  | get (path : String)
  | put (path : String) (content : String) (commitMessage : String) (sha : Option String)
  | del (path : String) (commitMessage : String) (sha : String)
deriving DecidableEq

/-- Spec-side predicate: the call is the create/update PUT operation. -/
def isPutCall : StoreCall → Bool
  | StoreCall.put _ _ _ _ => true
  | _ => false

/-- Handler computations: state-passing over the recorded remote-call trace,
with JavaScript exceptions as the error channel.  The trace persists when an
error is thrown (calls made before the failure stay observable). -/
def M (α : Type) : Type :=
  List StoreCall → Except JsError α × List StoreCall

/-- Return. -/
def M.pure {α : Type} (a : α) : M α := fun t => (Except.ok a, t)

/-- Sequencing: stop at the first thrown error. -/
def M.bind {α β : Type} (x : M α) (f : α → M β) : M β := fun t =>
  match x t with
  | (Except.ok a, t1) => f a t1
  | (Except.error e, t1) => (Except.error e, t1)

/-- JavaScript `throw`. -/
def M.throw {α : Type} (e : JsError) : M α := fun t => (Except.error e, t)

/-- JavaScript `try catch`. -/
def M.tryCatch {α : Type} (x : M α) (h : JsError → M α) : M α := fun t =>
  match x t with
  | (Except.ok a, t1) => (Except.ok a, t1)
  | (Except.error e, t1) => h e t1

/-- Record one remote call in the trace. -/
def M.record (c : StoreCall) : M Unit := fun t => (Except.ok (), t ++ [c])

/-- The remote repository as seen through the GitHub contents API: the
response to each GET, PUT and DELETE.  The HTTP transport itself is out of
scope of the specification; the environment abstracts it. -/
structure GitHubEnv where
  getContents : String → RemoteResult GitHubFile
  putContents : String → String → String → Option String → RemoteResult GitHubCreateFileResponse
  delContents : String → String → String → RemoteResult Unit

/-- One `this.client.get` of a contents path, as in GitHubClient. -/
def httpGet (env : GitHubEnv) (path : String) : M GitHubFile :=
  M.bind (M.record (StoreCall.get path)) (fun _ =>
    match env.getContents path with
    | RemoteResult.ok f => M.pure f
    | RemoteResult.err st dm m => M.throw (JsError.http st dm m))

/-- `GitHubClient.fileExists` from src/github.ts: true when the GET
succeeds, false exactly on a 404 response, any other failure rethrown. -/
def fileExists (env : GitHubEnv) (path : String) : M Bool :=
  M.tryCatch (M.bind (httpGet env path) (fun _ => M.pure true))
    (fun e =>
      match e with
      | JsError.http (some 404) _ _ => M.pure false
      | _ => M.throw e)

/-- `GitHubClient.getFile` from src/github.ts: GET the path and return the
file metadata including its sha. -/
def getFile (env : GitHubEnv) (path : String) : M GitHubFile :=
  httpGet env path

/-- `GitHubClient.createFile` from src/github.ts: PUT without a sha. -/
def createFile (env : GitHubEnv) (path content message : String) :
    M GitHubCreateFileResponse :=
  M.bind (M.record (StoreCall.put path content message none)) (fun _ =>
    match env.putContents path content message none with
    | RemoteResult.ok r => M.pure r
    | RemoteResult.err st dm m => M.throw (JsError.http st dm m))

/-- `GitHubClient.updateFile` from src/github.ts: PUT with the expected
sha of the current version. -/
def updateFile (env : GitHubEnv) (path content message sha : String) :
    M GitHubCreateFileResponse :=
  M.bind (M.record (StoreCall.put path content message (some sha))) (fun _ =>
    match env.putContents path content message (some sha) with
    | RemoteResult.ok r => M.pure r
    | RemoteResult.err st dm m => M.throw (JsError.http st dm m))

/-- Modelled from the spec: `GitHubClient.deleteFile` is invoked by the
delete handler but no such method appears in src/github.ts; the spec
defines `delete(path, commitMessage, expectedHash) -> void` with the same
hash-matching contract as update, so it is modelled as a DELETE of the
contents path carrying the commit message and the expected sha. -/
def deleteFile (env : GitHubEnv) (path message sha : String) : M Unit :=
  M.bind (M.record (StoreCall.del path message sha)) (fun _ =>
    match env.delContents path message sha with
    | RemoteResult.ok _ => M.pure ()
    | RemoteResult.err st dm m => M.throw (JsError.http st dm m))

/-- PublishBlogPostArgs from src/types.ts. -/
structure PublishBlogPostArgs where
  title : String
  content : String
  filename : Option String
  tags : Option (List String)
  description : Option String
  author : Option String
  image : Option String
  imageAlt : Option String
  readTime : Option String
deriving DecidableEq

/-- UpdateBlogPostArgs from src/types.ts (`content` optional in the
declared interface though the handler requires it). -/
structure UpdateBlogPostArgs where
  filename : String
  title : Option String
  content : Option String
  tags : Option (List String)
  description : Option String
  author : Option String
  image : Option String
  imageAlt : Option String
  readTime : Option String
deriving DecidableEq

/-- DeleteBlogPostArgs from src/types.ts. -/
structure DeleteBlogPostArgs where
  filename : String
deriving DecidableEq

/-- A single text content item of an MCP tool response. -/
structure TextContent where
  type : String
  text : String
deriving DecidableEq

/-- An MCP tool response: a content array of type/text objects. -/
structure McpResponse where
  content : List TextContent
deriving DecidableEq

/-- Wrap a success narrative as the MCP response of a handler. -/
def mkTextResponse (txt : String) : McpResponse :=
  ⟨[⟨"text", txt⟩]⟩

/-- The blog filename computed by the publish handler:
`filename ? filename + ".md" : generateFilename(title) + ".md"`. -/
def publishBlogFilename (args : PublishBlogPostArgs) : String :=
  if jsTruthy args.filename then jsGetStr args.filename ++ ".md"
  else generateFilename args.title ++ ".md"

/-- The publish handler's blog path: `src/blog/` + filename. -/
def publishBlogPath (args : PublishBlogPostArgs) : String :=
  "src/blog/" ++ publishBlogFilename args

/-- The update handler's blog path: `src/blog/` + filename (the filename is
expected to carry its own `.md` extension). -/
def updateBlogPath (args : UpdateBlogPostArgs) : String :=
  "src/blog/" ++ args.filename

/-- The delete handler's blog path: `src/blog/` + filename. -/
def deleteBlogPath (args : DeleteBlogPostArgs) : String :=
  "src/blog/" ++ args.filename

/-- Metadata record the publish handler passes to createBlogPostContent
(no date: the current timestamp is used at serialization). -/
def publishMetadata (args : PublishBlogPostArgs) : BlogPostMetadata :=
  ⟨args.title, args.description, args.tags, none, args.author, args.image,
    args.imageAlt, args.readTime⟩

/-- Metadata record the update handler passes to createBlogPostContent:
`title: title || "Updated Post"`, no date. -/
def updateMetadata (args : UpdateBlogPostArgs) : BlogPostMetadata :=
  ⟨jsOrOpt args.title "Updated Post", args.description, args.tags, none,
    args.author, args.image, args.imageAlt, args.readTime⟩

/-- The full document the update handler writes. -/
def updateFullContent (now : String) (args : UpdateBlogPostArgs) : String :=
  createBlogPostContent now (updateMetadata args) (jsGetStr args.content)

/-- Success narrative of the publish handler. -/
def publishSuccessText (title blogPath commitSha htmlUrl : String) : String :=
  "Successfully published blog post \"" ++ title ++ "\" to " ++ blogPath ++
    ".\n\nCommit SHA: " ++ commitSha ++ "\nFile URL: " ++ htmlUrl ++
    "\n\nThe build should be triggered automatically."

/-- Success narrative of the update handler. -/
def updateSuccessText (filename commitSha htmlUrl : String) : String :=
  "Successfully updated blog post \"" ++ filename ++
    "\".\n            \nCommit SHA: " ++ commitSha ++ "\nFile URL: " ++ htmlUrl ++
    "\n\nThe build should be triggered automatically."

/-- Success narrative of the delete handler. -/
def deleteSuccessText (filename : String) : String :=
  "Successfully deleted blog post \"" ++ filename ++
    "\".\n\nThe build should be triggered automatically."

/-- The publish handler `publishBlogPost(args)`: compute the path, check
existence, fail with InvalidRequest when the post exists, otherwise build
the document and create the file; the catch rethrows McpError unchanged
and wraps anything else as InternalError. -/
def publishBlogPost (env : GitHubEnv) (now : String) (args : PublishBlogPostArgs) :
    M McpResponse :=
  M.tryCatch
    (M.bind (fileExists env (publishBlogPath args)) (fun ex =>
      if ex then
        M.throw (JsError.mcp ErrorCode.invalidRequest
          ("Blog post with filename \"" ++ publishBlogFilename args ++
            "\" already exists. Use update_blog_post to modify it."))
      else
        M.bind (createFile env (publishBlogPath args)
            (createBlogPostContent now (publishMetadata args) args.content)
            ("Add new blog post: " ++ args.title))
          (fun response => M.pure (mkTextResponse (publishSuccessText args.title
            (publishBlogPath args) response.commit.sha response.content.html_url)))))
    (fun e =>
      match e with
      | JsError.mcp c m => M.throw (JsError.mcp c m)
      | JsError.http _ dm m =>
          M.throw (JsError.mcp ErrorCode.internalError
            ("Failed to publish blog post: " ++ jsOrOpt dm m)))

/-- The update handler `updateBlogPost(args)`: reject a missing/empty
content before any remote call, then read the existing file for its sha,
rebuild the document, and PUT with that sha; the catch rethrows McpError
unchanged and wraps anything else as InternalError. -/
def updateBlogPost (env : GitHubEnv) (now : String) (args : UpdateBlogPostArgs) :
    M McpResponse :=
  M.tryCatch
    (if !(jsTruthy args.content) then
      M.throw (JsError.mcp ErrorCode.invalidRequest
        "Content is required for updates in this version")
     else
      M.bind (getFile env (updateBlogPath args)) (fun existingFile =>
        M.bind (updateFile env (updateBlogPath args) (updateFullContent now args)
            ("Update blog post: " ++ args.filename) existingFile.sha)
          (fun response => M.pure (mkTextResponse (updateSuccessText args.filename
            response.commit.sha response.content.html_url)))))
    (fun e =>
      match e with
      | JsError.mcp c m => M.throw (JsError.mcp c m)
      | JsError.http _ dm m =>
          M.throw (JsError.mcp ErrorCode.internalError
            ("Failed to update blog post: " ++ jsOrOpt dm m)))

/-- The delete handler `deleteBlogPost(args)`: read the existing file for
its sha, then delete with that sha and return a confirmation; the catch
rethrows McpError unchanged and wraps anything else as InternalError. -/
def deleteBlogPost (env : GitHubEnv) (args : DeleteBlogPostArgs) : M McpResponse :=
  M.tryCatch
    (M.bind (getFile env (deleteBlogPath args)) (fun existingFile =>
      M.bind (deleteFile env (deleteBlogPath args)
          ("Delete blog post: " ++ args.filename) existingFile.sha)
        (fun _ => M.pure (mkTextResponse (deleteSuccessText args.filename)))))
    (fun e =>
      match e with
      | JsError.mcp c m => M.throw (JsError.mcp c m)
      | JsError.http _ dm m =>
          M.throw (JsError.mcp ErrorCode.internalError
            ("Failed to delete blog post: " ++ jsOrOpt dm m)))

/-- ToolDescriptor: one entry of the static registry (name, description,
and the required property names of its input schema; the remaining schema
text is plain data consumed by no logic). -/
structure ToolDescriptor where
  name : String
  description : String
  requiredParams : List String
deriving DecidableEq

/-- TOOLS from src/constants.ts: the five registry entries in order. -/
def TOOLS : List ToolDescriptor :=
  [⟨"publish_blog_post", "Publish a new blog post to the GitHub repository",
      ["title", "content"]⟩,
   ⟨"get_blog_post", "Read the content of a specific blog post", ["filename"]⟩,
   ⟨"list_blog_posts", "List existing blog posts in the repository", []⟩,
   ⟨"update_blog_post", "Update an existing blog post", ["filename"]⟩,
   ⟨"delete_blog_post", "Delete an existing blog post from the repository",
      ["filename"]⟩]

/-- Routing outcome of the CallTool dispatcher. -/
inductive Routed where
  | publish
  | list
  | update
  | delete
  | methodNotFound (message : String)
deriving DecidableEq

/-- The CallTool switch of setupToolHandlers: four handled names, every
other name raises MethodNotFound with the message of the source. -/
def dispatchToolName (name : String) : Routed :=
  match name with
  | "publish_blog_post" => Routed.publish
  | "list_blog_posts" => Routed.list
  | "update_blog_post" => Routed.update
  | "delete_blog_post" => Routed.delete
  | _ => Routed.methodNotFound ("Unknown tool: " ++ name)

/-- C6 (evaluation at the failing input): the registry lists
`get_blog_post`, yet the dispatcher routes it to no handler and raises
MethodNotFound for it; the only registry name the dispatcher rejects is
`get_blog_post` (the other four are all routed). -/
theorem get_blog_post_listed_but_unrouted :
    "get_blog_post" ∈ TOOLS.map ToolDescriptor.name ∧
    dispatchToolName "get_blog_post" =
      Routed.methodNotFound "Unknown tool: get_blog_post" ∧
    (TOOLS.map ToolDescriptor.name).filter
      (fun n => decide (dispatchToolName n =
        Routed.methodNotFound ("Unknown tool: " ++ n))) = ["get_blog_post"] := by
  refine ⟨?_, ?_, ?_⟩ <;> decide

/-- C1: when the computed blog path already exists (the GET of the path
succeeds, so `fileExists` returns true), the publish handler throws
InvalidRequest with the duplicate-filename message, the error is rethrown
untouched by the catch (it surfaces as InvalidRequest), and the trace
holds only the existence GET: the create PUT is never issued. -/
theorem publishBlogPost_exists_invalid_request
    (env : GitHubEnv) (now : String) (args : PublishBlogPostArgs) (f : GitHubFile)
    (hex : env.getContents (publishBlogPath args) = RemoteResult.ok f) :
    publishBlogPost env now args [] =
      (Except.error (JsError.mcp ErrorCode.invalidRequest
        ("Blog post with filename \"" ++ publishBlogFilename args ++
          "\" already exists. Use update_blog_post to modify it.")),
       [StoreCall.get (publishBlogPath args)]) ∧
    (publishBlogPost env now args []).2.all (fun c => !(isPutCall c)) = true := by
  have h1 : publishBlogPost env now args [] =
      (Except.error (JsError.mcp ErrorCode.invalidRequest
        ("Blog post with filename \"" ++ publishBlogFilename args ++
          "\" already exists. Use update_blog_post to modify it.")),
       [StoreCall.get (publishBlogPath args)]) := by
    unfold publishBlogPost fileExists httpGet
    simp [M.tryCatch, M.bind, M.record, M.pure, M.throw, hex]
  refine ⟨h1, ?_⟩
  rw [h1]
  rfl

/-- Sample repository file used by the concrete witnesses. -/
def sampleFile : GitHubFile :=
  ⟨"hello.md", "src/blog/hello.md", "abc123", 10, "u", "h", "g", "d", "file"⟩

/-- Sample commit author. -/
def sampleCommitUser : CommitUser := ⟨"dev", "dev@example.com", "2024-01-01"⟩

/-- Sample PUT response. -/
def sampleResponse : GitHubCreateFileResponse :=
  ⟨sampleFile, ⟨"c0ffee", "n", "u", "h", sampleCommitUser, sampleCommitUser, "m"⟩⟩

/-- Environment whose GETs, PUTs and DELETEs all succeed. -/
def envAllOk : GitHubEnv :=
  ⟨fun _ => RemoteResult.ok sampleFile,
   fun _ _ _ _ => RemoteResult.ok sampleResponse,
   fun _ _ _ => RemoteResult.ok ()⟩

/-- Publish arguments with no explicit filename. -/
def samplePublishArgs : PublishBlogPostArgs :=
  ⟨"Hello", "Body", none, none, none, none, none, none, none⟩

/-- Witness for C1 at a concrete input: the path derived from "Hello"
exists in `envAllOk`, the handler fails with InvalidRequest and the trace
holds no PUT. -/
theorem publishBlogPost_exists_invalid_request_witness :
    publishBlogPost envAllOk "2024-01-01T00:00:00.000Z" samplePublishArgs [] =
      (Except.error (JsError.mcp ErrorCode.invalidRequest
        ("Blog post with filename \"" ++ publishBlogFilename samplePublishArgs ++
          "\" already exists. Use update_blog_post to modify it.")),
       [StoreCall.get (publishBlogPath samplePublishArgs)]) ∧
    (publishBlogPost envAllOk "2024-01-01T00:00:00.000Z" samplePublishArgs []).2.all
      (fun c => !(isPutCall c)) = true :=
  publishBlogPost_exists_invalid_request envAllOk "2024-01-01T00:00:00.000Z"
    samplePublishArgs sampleFile rfl

/-- C3: an update invocation whose argument record lacks `content` fails
with InvalidRequest and the remote-call trace stays empty: no remote call,
the read of the existing file included, is made. -/
theorem updateBlogPost_missing_content
    (env : GitHubEnv) (now : String) (args : UpdateBlogPostArgs)
    (h : args.content = none) :
    updateBlogPost env now args [] =
      (Except.error (JsError.mcp ErrorCode.invalidRequest
        "Content is required for updates in this version"), []) := by
  unfold updateBlogPost
  simp [M.tryCatch, M.bind, M.throw, jsTruthy, h]

/-- Update arguments with no content field. -/
def sampleUpdateArgsNoContent : UpdateBlogPostArgs :=
  ⟨"hello.md", none, none, none, none, none, none, none, none⟩

/-- Witness for C3 at a concrete input. -/
theorem updateBlogPost_missing_content_witness :
    updateBlogPost envAllOk "2024-01-01T00:00:00.000Z" sampleUpdateArgsNoContent [] =
      (Except.error (JsError.mcp ErrorCode.invalidRequest
        "Content is required for updates in this version"), []) :=
  updateBlogPost_missing_content envAllOk "2024-01-01T00:00:00.000Z"
    sampleUpdateArgsNoContent rfl

/-- C2: the delete handler first reads the existing path (obtaining its
current sha), then issues the store delete with exactly that sha, and on
success returns the confirmation response; the store delete operation
itself is `deleteFile` (modelled from the spec, absent from
src/github.ts). -/
theorem deleteBlogPost_read_then_delete
    (env : GitHubEnv) (dargs : DeleteBlogPostArgs) (f : GitHubFile)
    (hr : env.getContents (deleteBlogPath dargs) = RemoteResult.ok f)
    (hd : env.delContents (deleteBlogPath dargs)
        ("Delete blog post: " ++ dargs.filename) f.sha = RemoteResult.ok ()) :
    deleteBlogPost env dargs [] =
      (Except.ok (mkTextResponse (deleteSuccessText dargs.filename)),
       [StoreCall.get (deleteBlogPath dargs),
        StoreCall.del (deleteBlogPath dargs)
          ("Delete blog post: " ++ dargs.filename) f.sha]) := by
  unfold deleteBlogPost getFile deleteFile httpGet
  simp [M.tryCatch, M.bind, M.record, M.pure, M.throw, hr, hd]

/-- Delete arguments for the witnesses. -/
def sampleDeleteArgs : DeleteBlogPostArgs := ⟨"hello.md"⟩

/-- Witness for C2 at a concrete input. -/
theorem deleteBlogPost_read_then_delete_witness :
    deleteBlogPost envAllOk sampleDeleteArgs [] =
      (Except.ok (mkTextResponse (deleteSuccessText sampleDeleteArgs.filename)),
       [StoreCall.get (deleteBlogPath sampleDeleteArgs),
        StoreCall.del (deleteBlogPath sampleDeleteArgs)
          ("Delete blog post: " ++ sampleDeleteArgs.filename) sampleFile.sha]) :=
  deleteBlogPost_read_then_delete envAllOk sampleDeleteArgs sampleFile rfl rfl

/-- C5: in every update invocation that reaches the mutating PUT and every
delete invocation that reaches the DELETE, the sha passed to the mutating
call equals the sha of the file returned by the immediately preceding GET
of the same path (whatever the mutating call then returns). -/
theorem update_delete_hash_matches_read
    (env : GitHubEnv) (now : String) (uargs : UpdateBlogPostArgs)
    (dargs : DeleteBlogPostArgs) (fu fd : GitHubFile)
    (hcontent : jsTruthy uargs.content = true)
    (hru : env.getContents (updateBlogPath uargs) = RemoteResult.ok fu)
    (hrd : env.getContents (deleteBlogPath dargs) = RemoteResult.ok fd) :
    (updateBlogPost env now uargs []).2 =
      [StoreCall.get (updateBlogPath uargs),
       StoreCall.put (updateBlogPath uargs) (updateFullContent now uargs)
         ("Update blog post: " ++ uargs.filename) (some fu.sha)] ∧
    (deleteBlogPost env dargs []).2 =
      [StoreCall.get (deleteBlogPath dargs),
       StoreCall.del (deleteBlogPath dargs)
         ("Delete blog post: " ++ dargs.filename) fd.sha] := by
  constructor
  · unfold updateBlogPost getFile updateFile httpGet
    rcases hput : env.putContents (updateBlogPath uargs) (updateFullContent now uargs)
        ("Update blog post: " ++ uargs.filename) (some fu.sha) with r | ⟨st, dm, m⟩ <;>
      simp [M.tryCatch, M.bind, M.record, M.pure, M.throw, hcontent, hru, hput]
  · unfold deleteBlogPost getFile deleteFile httpGet
    rcases hdel : env.delContents (deleteBlogPath dargs)
        ("Delete blog post: " ++ dargs.filename) fd.sha with r | ⟨st, dm, m⟩ <;>
      simp [M.tryCatch, M.bind, M.record, M.pure, M.throw, hrd, hdel]

/-- Update arguments carrying new content. -/
def sampleUpdateArgs : UpdateBlogPostArgs :=
  ⟨"hello.md", some "Hi", some "New body", none, none, none, none, none, none⟩

/-- Witness for C5 at concrete inputs. -/
theorem update_delete_hash_matches_read_witness :
    (updateBlogPost envAllOk "2024-01-01T00:00:00.000Z" sampleUpdateArgs []).2 =
      [StoreCall.get (updateBlogPath sampleUpdateArgs),
       StoreCall.put (updateBlogPath sampleUpdateArgs)
         (updateFullContent "2024-01-01T00:00:00.000Z" sampleUpdateArgs)
         ("Update blog post: " ++ sampleUpdateArgs.filename) (some sampleFile.sha)] ∧
    (deleteBlogPost envAllOk sampleDeleteArgs []).2 =
      [StoreCall.get (deleteBlogPath sampleDeleteArgs),
       StoreCall.del (deleteBlogPath sampleDeleteArgs)
         ("Delete blog post: " ++ sampleDeleteArgs.filename) sampleFile.sha] :=
  update_delete_hash_matches_read envAllOk "2024-01-01T00:00:00.000Z" sampleUpdateArgs
    sampleDeleteArgs sampleFile sampleFile (by decide) rfl rfl

/-- C10: with an explicit filename the remote path is plain string
concatenation, with no slug derivation, character restriction or
path-traversal check: publish targets `src/blog/` + filename + `.md`,
update and delete target `src/blog/` + filename. -/
theorem explicit_filename_concatenation
    (pargs : PublishBlogPostArgs) (uargs : UpdateBlogPostArgs)
    (dargs : DeleteBlogPostArgs) (f : String)
    (hp : pargs.filename = some f) (hf : f ≠ "") :
    publishBlogPath pargs = "src/blog/" ++ f ++ ".md" ∧
    updateBlogPath uargs = "src/blog/" ++ uargs.filename ∧
    deleteBlogPath dargs = "src/blog/" ++ dargs.filename := by
  refine ⟨?_, rfl, rfl⟩
  unfold publishBlogPath publishBlogFilename
  rw [hp]
  simp [jsTruthy, jsGetStr, hf, String.append_assoc]

/-- Publish arguments whose explicit filename climbs out of the blog
directory. -/
def traversalPublishArgs : PublishBlogPostArgs :=
  ⟨"Evil", "Body", some "../../secrets/creds", none, none, none, none, none, none⟩

/-- Update arguments naming a file outside src/blog and without the
markdown extension. -/
def traversalUpdateArgs : UpdateBlogPostArgs :=
  ⟨"../workflow.yaml", none, some "x", none, none, none, none, none, none⟩

/-- Delete arguments naming a file outside src/blog. -/
def traversalDeleteArgs : DeleteBlogPostArgs := ⟨"../README.txt"⟩

/-- Witness for C10 at concrete traversal inputs. -/
theorem explicit_filename_concatenation_witness :
    publishBlogPath traversalPublishArgs = "src/blog/" ++ "../../secrets/creds" ++ ".md" ∧
    updateBlogPath traversalUpdateArgs = "src/blog/" ++ traversalUpdateArgs.filename ∧
    deleteBlogPath traversalDeleteArgs = "src/blog/" ++ traversalDeleteArgs.filename :=
  explicit_filename_concatenation traversalPublishArgs traversalUpdateArgs
    traversalDeleteArgs "../../secrets/creds" rfl (by decide)

theorem strStarts_concat_false (p lit s : String)
    (h1 : List.isPrefixOf p.data lit.data = false)
    (h2 : List.isPrefixOf lit.data p.data = false) :
    strStarts p (lit ++ s) = false := by
  unfold strStarts
  rw [String.data_append]
  by_contra hx
  rw [Bool.not_eq_false] at hx
  have hpre : p.data <+: lit.data ++ s.data := List.isPrefixOf_iff_prefix.mp hx
  have hlit : lit.data <+: lit.data ++ s.data := List.prefix_append _ _
  rcases List.prefix_or_prefix_of_prefix hpre hlit with h | h
  · rw [List.isPrefixOf_iff_prefix.mpr h] at h1
    exact absurd h1 (by decide)
  · rw [List.isPrefixOf_iff_prefix.mpr h] at h2
    exact absurd h2 (by decide)

theorem mem_optBlock {b : Bool} {x l : String} (h : l ∈ (if b then [x] else [])) :
    b = true ∧ l = x := by
  cases b
  · simp at h
  · simp at h
    exact ⟨rfl, h⟩

theorem mem_frontmatterLines {now : String} {md : BlogPostMetadata} {l : String}
    (h : l ∈ frontmatterLines now md) :
    l = "---" ∨ l = "" ∨ l = "tags:" ∨
    (∃ s, l = "title: " ++ s) ∨ (∃ s, l = "  - " ++ s) ∨ (∃ s, l = "date: " ++ s) ∨
    (jsTruthy md.author = true ∧ ∃ s, l = "author: " ++ s) ∨
    (jsTruthy md.description = true ∧ ∃ s, l = "description: " ++ s) ∨
    (jsTruthy md.image = true ∧ ∃ s, l = "image: " ++ s) ∨
    (jsTruthy md.imageAlt = true ∧ ∃ s, l = "imageAlt: " ++ s) ∨
    (jsTruthy md.readTime = true ∧ ∃ s, l = "readTime: " ++ s) := by
  unfold frontmatterLines at h
  simp only [List.append_assoc, List.cons_append, List.nil_append, List.mem_cons,
    List.mem_append] at h
  rcases h with h | h | h | h | h | h | h | h | h | h | h
  · exact Or.inl h
  · exact Or.inr (Or.inr (Or.inr (Or.inl ⟨md.title, h⟩)))
  · rcases mem_optBlock (by simpa [authorBlock] using h) with ⟨hb, hl⟩
    exact Or.inr (Or.inr (Or.inr (Or.inr (Or.inr (Or.inr (Or.inl
      ⟨hb, jsGetStr md.author, hl⟩))))))
  · rcases mem_optBlock (by simpa [descriptionBlock] using h) with ⟨hb, hl⟩
    exact Or.inr (Or.inr (Or.inr (Or.inr (Or.inr (Or.inr (Or.inr (Or.inl
      ⟨hb, jsGetStr md.description, hl⟩)))))))
  · rw [tagsBlock_eq, List.mem_cons] at h
    rcases h with h | h
    · exact Or.inr (Or.inr (Or.inl h))
    · rcases List.mem_map.mp h with ⟨t, _, ht⟩
      exact Or.inr (Or.inr (Or.inr (Or.inr (Or.inl ⟨t, ht.symm⟩))))
  · exact Or.inr (Or.inr (Or.inr (Or.inr (Or.inr (Or.inl ⟨jsOrOpt md.date now, h⟩)))))
  · rcases mem_optBlock (by simpa [imageBlock] using h) with ⟨hb, hl⟩
    exact Or.inr (Or.inr (Or.inr (Or.inr (Or.inr (Or.inr (Or.inr (Or.inr (Or.inl
      ⟨hb, jsGetStr md.image, hl⟩))))))))
  · rcases mem_optBlock (by simpa [imageAltBlock] using h) with ⟨hb, hl⟩
    refine Or.inr (Or.inr (Or.inr (Or.inr (Or.inr (Or.inr (Or.inr (Or.inr (Or.inr (Or.inl
      ⟨hb, "\"" ++ jsGetStr md.imageAlt ++ "\"", ?_⟩)))))))))
    rw [hl]
    rw [show ("imageAlt: \"" : String) = "imageAlt: " ++ "\"" from rfl,
      String.append_assoc "imageAlt: " "\"" (jsGetStr md.imageAlt),
      String.append_assoc "imageAlt: " ("\"" ++ jsGetStr md.imageAlt) "\""]
  · rcases mem_optBlock (by simpa [readTimeBlock] using h) with ⟨hb, hl⟩
    exact Or.inr (Or.inr (Or.inr (Or.inr (Or.inr (Or.inr (Or.inr (Or.inr (Or.inr (Or.inr
      ⟨hb, jsGetStr md.readTime, hl⟩)))))))))
  · exact Or.inl h
  · rcases h with h | h
    · exact Or.inr (Or.inl h)
    · simp at h

/-- C8: frontmatter omission of absent or empty optional fields: when
author, description, image, imageAlt or readTime is absent or empty, no
output line starts with the corresponding key (in particular, with no
image there is no line starting with `image:`), while a `tags:` line and
the `date:` line (supplied date or current timestamp) are always
emitted. -/
theorem formatFrontmatter_omits_empty_fields (now : String) (md : BlogPostMetadata) :
    (jsTruthy md.author = false →
      linesAvoid (frontmatterLines now md) "author:" = true) ∧
    (jsTruthy md.description = false →
      linesAvoid (frontmatterLines now md) "description:" = true) ∧
    (jsTruthy md.image = false →
      linesAvoid (frontmatterLines now md) "image:" = true) ∧
    (jsTruthy md.imageAlt = false →
      linesAvoid (frontmatterLines now md) "imageAlt:" = true) ∧
    (jsTruthy md.readTime = false →
      linesAvoid (frontmatterLines now md) "readTime:" = true) ∧
    "tags:" ∈ frontmatterLines now md ∧
    dateLine now md ∈ frontmatterLines now md := by
  have main : ∀ (p : String), strStarts p "---" = false → strStarts p "" = false →
      strStarts p "tags:" = false →
      (∀ s, strStarts p ("title: " ++ s) = false) →
      (∀ s, strStarts p ("  - " ++ s) = false) →
      (∀ s, strStarts p ("date: " ++ s) = false) →
      (jsTruthy md.author = true → ∀ s, strStarts p ("author: " ++ s) = false) →
      (jsTruthy md.description = true → ∀ s, strStarts p ("description: " ++ s) = false) →
      (jsTruthy md.image = true → ∀ s, strStarts p ("image: " ++ s) = false) →
      (jsTruthy md.imageAlt = true → ∀ s, strStarts p ("imageAlt: " ++ s) = false) →
      (jsTruthy md.readTime = true → ∀ s, strStarts p ("readTime: " ++ s) = false) →
      linesAvoid (frontmatterLines now md) p = true := by
    intro p hA hB hC hD hE hF hG hH hI hJ hK
    unfold linesAvoid
    rw [List.all_eq_true]
    intro l hl
    rw [Bool.not_eq_eq_eq_not, Bool.not_true]
    rcases mem_frontmatterLines hl with
      h | h | h | ⟨s, h⟩ | ⟨s, h⟩ | ⟨s, h⟩ | ⟨hb, s, h⟩ | ⟨hb, s, h⟩ | ⟨hb, s, h⟩ |
        ⟨hb, s, h⟩ | ⟨hb, s, h⟩
    · rw [h]; exact hA
    · rw [h]; exact hB
    · rw [h]; exact hC
    · rw [h]; exact hD s
    · rw [h]; exact hE s
    · rw [h]; exact hF s
    · rw [h]; exact hG hb s
    · rw [h]; exact hH hb s
    · rw [h]; exact hI hb s
    · rw [h]; exact hJ hb s
    · rw [h]; exact hK hb s
  refine ⟨?_, ?_, ?_, ?_, ?_, ?_, ?_⟩
  · intro hf
    refine main "author:" (by decide) (by decide) (by decide)
      (fun s => strStarts_concat_false _ _ _ (by decide) (by decide))
      (fun s => strStarts_concat_false _ _ _ (by decide) (by decide))
      (fun s => strStarts_concat_false _ _ _ (by decide) (by decide))
      (fun hb => absurd hb (by rw [hf]; exact Bool.false_ne_true))
      (fun _ s => strStarts_concat_false _ _ _ (by decide) (by decide))
      (fun _ s => strStarts_concat_false _ _ _ (by decide) (by decide))
      (fun _ s => strStarts_concat_false _ _ _ (by decide) (by decide))
      (fun _ s => strStarts_concat_false _ _ _ (by decide) (by decide))
  · intro hf
    refine main "description:" (by decide) (by decide) (by decide)
      (fun s => strStarts_concat_false _ _ _ (by decide) (by decide))
      (fun s => strStarts_concat_false _ _ _ (by decide) (by decide))
      (fun s => strStarts_concat_false _ _ _ (by decide) (by decide))
      (fun _ s => strStarts_concat_false _ _ _ (by decide) (by decide))
      (fun hb => absurd hb (by rw [hf]; exact Bool.false_ne_true))
      (fun _ s => strStarts_concat_false _ _ _ (by decide) (by decide))
      (fun _ s => strStarts_concat_false _ _ _ (by decide) (by decide))
      (fun _ s => strStarts_concat_false _ _ _ (by decide) (by decide))
  · intro hf
    refine main "image:" (by decide) (by decide) (by decide)
      (fun s => strStarts_concat_false _ _ _ (by decide) (by decide))
      (fun s => strStarts_concat_false _ _ _ (by decide) (by decide))
      (fun s => strStarts_concat_false _ _ _ (by decide) (by decide))
      (fun _ s => strStarts_concat_false _ _ _ (by decide) (by decide))
      (fun _ s => strStarts_concat_false _ _ _ (by decide) (by decide))
      (fun hb => absurd hb (by rw [hf]; exact Bool.false_ne_true))
      (fun _ s => strStarts_concat_false _ _ _ (by decide) (by decide))
      (fun _ s => strStarts_concat_false _ _ _ (by decide) (by decide))
  · intro hf
    refine main "imageAlt:" (by decide) (by decide) (by decide)
      (fun s => strStarts_concat_false _ _ _ (by decide) (by decide))
      (fun s => strStarts_concat_false _ _ _ (by decide) (by decide))
      (fun s => strStarts_concat_false _ _ _ (by decide) (by decide))
      (fun _ s => strStarts_concat_false _ _ _ (by decide) (by decide))
      (fun _ s => strStarts_concat_false _ _ _ (by decide) (by decide))
      (fun _ s => strStarts_concat_false _ _ _ (by decide) (by decide))
      (fun hb => absurd hb (by rw [hf]; exact Bool.false_ne_true))
      (fun _ s => strStarts_concat_false _ _ _ (by decide) (by decide))
  · intro hf
    refine main "readTime:" (by decide) (by decide) (by decide)
      (fun s => strStarts_concat_false _ _ _ (by decide) (by decide))
      (fun s => strStarts_concat_false _ _ _ (by decide) (by decide))
      (fun s => strStarts_concat_false _ _ _ (by decide) (by decide))
      (fun _ s => strStarts_concat_false _ _ _ (by decide) (by decide))
      (fun _ s => strStarts_concat_false _ _ _ (by decide) (by decide))
      (fun _ s => strStarts_concat_false _ _ _ (by decide) (by decide))
      (fun _ s => strStarts_concat_false _ _ _ (by decide) (by decide))
      (fun hb => absurd hb (by rw [hf]; exact Bool.false_ne_true))
  · unfold frontmatterLines
    rw [tagsBlock_eq]
    simp
  · unfold frontmatterLines
    simp

/-- Metadata with every optional field absent. -/
def emptyMetadata : BlogPostMetadata :=
  ⟨"T", none, none, none, none, none, none, none⟩

/-- Witness for C8 at a concrete input: with no image field no line starts
with `image:`, while `tags:` is still emitted. -/
theorem formatFrontmatter_omits_empty_fields_witness :
    linesAvoid (frontmatterLines "2024-01-01T00:00:00.000Z" emptyMetadata) "image:" = true ∧
    "tags:" ∈ frontmatterLines "2024-01-01T00:00:00.000Z" emptyMetadata :=
  ⟨(formatFrontmatter_omits_empty_fields "2024-01-01T00:00:00.000Z" emptyMetadata).2.2.1 rfl,
   (formatFrontmatter_omits_empty_fields "2024-01-01T00:00:00.000Z" emptyMetadata).2.2.2.2.2.1⟩
